import Mathlib

/-!
Verification of the okteto workload-translation engine (jobs package) and of the
ssh tunnel pool, against a shallow embedding of the Go source.

Go string maps are embedded as association lists; a map that can be nil in Go
(the label maps, which the source writes through without a nil check) is
embedded as an Option, with none standing for the nil map.  Kubernetes client
calls are embedded as oracle functions carried in a Cluster structure.  Wall
clock time is an explicit Nat parameter (seconds since epoch).
-/

set_option maxHeartbeats 1000000

namespace Okteto

/-- string-to-string map embedded as an association list -/
abbrev SMap := List (String × String)

def lookupKey (m : SMap) (k : String) : Option String :=
  match m with
  | [] => none
  | (k1, v) :: rest => if k1 = k then some v else lookupKey rest k

def setKey (m : SMap) (k v : String) : SMap :=
  match m with
  | [] => [(k, v)]
  | (k1, v1) :: rest => if k1 = k then (k, v) :: rest else (k1, v1) :: setKey rest k v

def eraseKey (m : SMap) (k : String) : SMap :=
  match m with
  | [] => []
  | (k1, v1) :: rest => if k1 = k then eraseKey rest k else (k1, v1) :: eraseKey rest k

/-- Modelled from the spec: merge semantics in which override entries win on key
collision and unrelated existing entries are preserved. -/
def mergeMap (base overrides : SMap) : SMap :=
  overrides.foldl (fun acc kv => setKey acc kv.1 kv.2) base

structure Container where
  name : String
  image : String
  command : List String
  args : List String
  env : SMap
  volumeMounts : List (String × String)
  deriving DecidableEq

structure Toleration where
  key : String
  value : String
  deriving DecidableEq

structure SecurityContext where
  runAsUser : Option Nat
  runAsGroup : Option Nat
  fsGroup : Option Nat
  deriving DecidableEq

structure Volume where
  name : String
  source : String
  deriving DecidableEq

structure PodSpec where
  containers : List Container
  initContainers : List Container
  tolerations : List Toleration
  volumes : List Volume
  securityContext : Option SecurityContext
  affinitySessions : List String
  deriving DecidableEq

structure PodTemplate where
  labels : Option SMap
  annotations : SMap
  spec : PodSpec
  deriving DecidableEq

structure JobSpec where
  selector : Option SMap
  template : PodTemplate
  deriving DecidableEq

structure JobStatus where
  active : Nat
  succeeded : Nat
  failed : Nat
  deriving DecidableEq

/-- the zero value batchv1.JobStatus assigned by the identity stripper -/
def JobStatus.empty : JobStatus := { active := 0, succeeded := 0, failed := 0 }

structure Job where
  name : String
  labels : Option SMap
  annotations : SMap
  resourceVersion : String
  status : JobStatus
  spec : JobSpec
  deriving DecidableEq

/-- the slice of model.Dev that the jobs package reads -/
structure Dev where
  name : String
  namespaceName : String
  labels : SMap
  container : String
  image : String
  command : List String
  environment : SMap
  annotations : SMap
  tolerations : List Toleration
  secrets : List String
  securityContext : Option SecurityContext
  marker : String
  deriving DecidableEq

structure TranslationRule where
  container : String
  image : String
  command : List String
  args : List String
  env : SMap
  secrets : List String
  volumes : List (String × String)
  securityContext : Option SecurityContext
  marker : String
  deriving DecidableEq

structure Translation where
  name : String
  interactive : Bool
  version : String
  job : Option Job
  annotations : SMap
  tolerations : List Toleration
  rules : List TranslationRule
  deriving DecidableEq

def revisionKey : String := "deployment.kubernetes.io/revision"

def oktetoVersionKey : String := "dev.okteto.com/version"

/-- Modelled from the spec: the schema version stamped by the common pass
(model.TranslationVersion is not under src). -/
def translationVersion : String := "1.0"

/-- Modelled from the spec: model.Dev.LabelsSelector (not under src) renders the
label set as the cluster label-selector string. -/
def labelsSelector (labels : SMap) : String :=
  String.intercalate "," (labels.map (fun kv => kv.1 ++ "=" ++ kv.2))

/-- cluster API oracles: get-by-name, list-by-selector, create.  Each call
either returns a value or a transport error string. -/
structure Cluster where
  getJob : String → String → Except String Job
  listJobs : String → String → Except String (List Job)
  createJob : String → Job → Except String Job

inductive GetErr where
  | emptyNamespace
  | transport (msg : String)
  | notFound (selector : String)
  | ambiguous (count : Nat) (selector : String)
  deriving DecidableEq

/-- embedding of func get (part_002 lines 20-54): name lookup when the label
set is empty, otherwise list by selector with the zero/one/many split. -/
def get (dev : Dev) (ns : String) (c : Cluster) : Except GetErr Job :=
  if ns = "" then .error .emptyNamespace
  else if dev.labels.length = 0 then
    match c.getJob ns dev.name with
    | .error e => .error (.transport e)
    | .ok j => .ok j
  else
    match c.listJobs ns (labelsSelector dev.labels) with
    | .error e => .error (.transport e)
    | .ok items =>
      match items with
      | [] => .error (.notFound (labelsSelector dev.labels))
      | j :: rest =>
        if rest.length + 1 > 1 then
          .error (.ambiguous (rest.length + 1) (labelsSelector dev.labels))
        else .ok j

def updateAt {α : Type} (l : List α) (i : Nat) (f : α → α) : List α :=
  match l, i with
  | [], _ => []
  | a :: rest, 0 => f a :: rest
  | a :: rest, Nat.succ n => a :: updateAt rest n f

/-- Modelled from the spec: deployments.GetDevContainer (not under src) locates
the target container by name within the pod template; none when absent. -/
def GetDevContainer (containers : List Container) (name : String) : Option Nat :=
  match containers with
  | [] => none
  | c :: rest =>
    if c.name = name then some 0
    else (GetDevContainer rest name).map (fun i => i + 1)

/-- Modelled from the spec: deployments.TranslateDevContainer (not under src)
replaces image, command and args when specified and merges the environment
variables, rule entries winning on key collision. -/
def TranslateDevContainer (c : Container) (r : TranslationRule) : Container :=
  { c with
    image := if r.image = "" then c.image else r.image
    command := if r.command = [] then c.command else r.command
    args := if r.args = [] then c.args else r.args
    env := mergeMap c.env r.env }

def ensureVolume (vols : List Volume) (v : Volume) : List Volume :=
  if vols.any (fun w => w.name = v.name) then vols else vols ++ [v]

/-- Modelled from the spec: deployments.TranslateOktetoVolumes (not under src)
ensures a pod-level volume exists for each developer volume mount. -/
def TranslateOktetoVolumes (spec : PodSpec) (r : TranslationRule) : PodSpec :=
  { spec with
    volumes := r.volumes.foldl (fun acc kv => ensureVolume acc { name := kv.1, source := "okteto" }) spec.volumes }

/-- Modelled from the spec: deployments.TranslatePodSecurityContext (not under
src) applies the security-context override at the pod level when specified. -/
def TranslatePodSecurityContext (spec : PodSpec) (sc : Option SecurityContext) : PodSpec :=
  match sc with
  | none => spec
  | some s => { spec with securityContext := some s }

/-- Modelled from the spec: deployments.TranslateOktetoDevSecret (not under src)
ensures a secret-sourced volume for the session dev secret when secrets are
referenced. -/
def TranslateOktetoDevSecret (spec : PodSpec) (session : String) (secrets : List String) : PodSpec :=
  if secrets = [] then spec
  else { spec with volumes := ensureVolume spec.volumes { name := "okteto-dev-secret-" ++ session, source := "secret" } }

def oktetoBinName : String := "okteto-bin"

def initBinContainer : Container :=
  { name := oktetoBinName
    image := "okteto-bin-image"
    command := ["cp"]
    args := []
    env := []
    volumeMounts := [(oktetoBinName, "/okteto/bin")] }

/-- Modelled from the spec: deployments.TranslateOktetoBinVolumeMounts (not
under src) mounts the shared tooling volume into the target container. -/
def TranslateOktetoBinVolumeMounts (c : Container) : Container :=
  if c.volumeMounts.any (fun m => m.1 = oktetoBinName) then c
  else { c with volumeMounts := c.volumeMounts ++ [(oktetoBinName, "/var/okteto/bin")] }

/-- Modelled from the spec: deployments.TranslateOktetoInitBinContainer (not
under src) adds the tooling init container, idempotently. -/
def TranslateOktetoInitBinContainer (spec : PodSpec) : PodSpec :=
  if spec.initContainers.any (fun c => c.name = oktetoBinName) then spec
  else { spec with initContainers := spec.initContainers ++ [initBinContainer] }

/-- Modelled from the spec: deployments.TranslateOktetoBinVolume (not under src)
adds the shared empty-backed tooling volume, idempotently. -/
def TranslateOktetoBinVolume (spec : PodSpec) : PodSpec :=
  { spec with volumes := ensureVolume spec.volumes { name := oktetoBinName, source := "emptyDir" } }

/-- Modelled from the spec: deployments.CommonTranslation (not under src) merges
the common annotations into the object-level and template-level metadata and
stamps the schema-version annotation on both. -/
def CommonTranslation (t : Translation) (objectMeta templateMeta : SMap) : SMap × SMap :=
  (setKey (mergeMap objectMeta t.annotations) oktetoVersionKey t.version,
   setKey (mergeMap templateMeta t.annotations) oktetoVersionKey t.version)

/-- Modelled from the spec: deployments.TranslateDevAnnotations (not under src)
merges override annotations into the given metadata. -/
def TranslateDevAnnotations (meta overrides : SMap) : SMap :=
  mergeMap meta overrides

/-- Modelled from the spec: deployments.TranslateDevTolerations (not under src)
appends the common tolerations to the pod spec. -/
def TranslateDevTolerations (spec : PodSpec) (tols : List Toleration) : PodSpec :=
  { spec with tolerations := spec.tolerations ++ tols }

/-- Modelled from the spec: deployments.TranslatePodAffinity (not under src)
records a soft session-keyed pod-affinity hint when a session name is given. -/
def TranslatePodAffinity (spec : PodSpec) (session : String) : PodSpec :=
  if session = "" then spec
  else { spec with affinitySessions := spec.affinitySessions ++ [session] }

inductive TranslateErr where
  | containerNotFound (container : String) (jobName : String)
  | nilMapPanic
  deriving DecidableEq

/-- the regenerated derived name (part_002 line 90): fmt.Sprintf with the okteto
prefix, the source job's own name, and the unix timestamp. -/
def newJobName (base : String) (now : Nat) : String :=
  "okteto-" ++ base ++ "-" ++ Nat.repr now

def containerNames (spec : PodSpec) : List String :=
  spec.containers.map (fun c => c.name)

/-- the body of one iteration of the rule loop (part_002 lines 117-125) once
the target container has been located at index i -/
def applyRuleAt (t : Translation) (spec : PodSpec) (r : TranslationRule) (i : Nat) : PodSpec :=
  let s1 := { spec with containers := updateAt spec.containers i (fun c => TranslateDevContainer c r) }
  let s2 := TranslateOktetoVolumes s1 r
  let s3 := TranslatePodSecurityContext s2 r.securityContext
  let s4 := TranslateOktetoDevSecret s3 t.name r.secrets
  if r.marker = "" then s4
  else
    TranslateOktetoBinVolume
      (TranslateOktetoInitBinContainer
        { s4 with containers := updateAt s4.containers i TranslateOktetoBinVolumeMounts })

/-- the per-container pass of translate (part_002 lines 111-126): find each
rule's target container, abort when missing, otherwise apply the container,
volume, security-context, secret and tooling translations. -/
def applyRules (t : Translation) (jobName : String) (spec : PodSpec) :
    List TranslationRule → Except TranslateErr PodSpec
  | [] => .ok spec
  | r :: rest =>
    match GetDevContainer spec.containers r.container with
    | none => .error (.containerNotFound r.container jobName)
    | some i => applyRules t jobName (applyRuleAt t spec r i) rest

/-- the pod spec after the metadata passes of translate (part_002 lines
106-109) and before the rule loop: common tolerations, session affinity, and
the second toleration append of line 109 -/
def prePodSpec (old : Job) (t : Translation) : PodSpec :=
  let s1 := TranslateDevTolerations old.spec.template.spec t.tolerations
  let s2 := TranslatePodAffinity s1 t.name
  { s2 with tolerations := s2.tolerations ++ t.tolerations }

/-- the derived job assembled by translate (part_002 lines 88-105) from the
stripped labels, the merged annotations and the fully translated pod spec -/
def translatedJob (old : Job) (t : Translation) (now : Nat) (objLabels tplLabels : SMap)
    (sFinal : PodSpec) : Job :=
  let name := newJobName old.name now
  let metas := CommonTranslation t (eraseKey old.annotations revisionKey) old.spec.template.annotations
  { name := name
    labels := some (eraseKey (setKey objLabels "job-name" name) "controller-uid")
    annotations := metas.1
    resourceVersion := ""
    status := JobStatus.empty
    spec :=
      { selector := none
        template :=
          { labels := some (eraseKey (setKey tplLabels "job-name" name) "controller-uid")
            annotations := TranslateDevAnnotations metas.2 t.annotations
            spec := sFinal } } }

/-- embedding of func translate (part_002 lines 88-129).  The nil-map writes of
lines 95 and 98 surface as the nilMapPanic outcome; everything else mirrors the
source statement by statement on the deep copy. -/
def translate (old : Job) (t : Translation) (now : Nat) : Except TranslateErr Job :=
  match old.labels, old.spec.template.labels with
  | none, _ => .error .nilMapPanic
  | some _, none => .error .nilMapPanic
  | some objLabels, some tplLabels =>
    match applyRules t (newJobName old.name now) (prePodSpec old t) t.rules with
    | .error e => .error e
    | .ok sFinal => .ok (translatedJob old t now objLabels tplLabels sFinal)

/-- heap-level embedding of translate: the store is the set of live job objects,
old.DeepCopy allocates a fresh cell and every subsequent write targets the
fresh cell, mirroring that the source pointer is never written through. -/
def translateHeap (store : List Job) (src : Nat) (t : Translation) (now : Nat) :
    List Job × Except TranslateErr Nat :=
  match store.get? src with
  | none => (store, .error .nilMapPanic)
  | some old =>
    let store1 := store ++ [old]
    let ref := store.length
    match translate old t now with
    | .error e => (store1, .error e)
    | .ok j => (updateAt store1 ref (fun _ => j), .ok ref)

/-- Modelled from the spec: model.Dev.ToTranslationRule (not under src) builds
the single per-container override rule from the developer manifest. -/
def ToTranslationRule (d main : Dev) : TranslationRule :=
  { container := d.container
    image := d.image
    command := d.command
    args := []
    env := mergeMap d.environment main.environment
    secrets := d.secrets
    volumes := []
    securityContext := d.securityContext
    marker := d.marker }

inductive PipelineErr where
  | resolve (e : GetErr)
  | translateErr (e : TranslateErr)
  | createFailed (msg : String)
  deriving DecidableEq

/-- the Translation value assembled by CreateDevJob (part_002 lines 64-73) -/
def pipelineTranslation (jobDev main : Dev) (j : Job) : Translation :=
  { name := main.name
    interactive := false
    version := translationVersion
    job := some j
    annotations := main.annotations
    tolerations := main.tolerations
    rules := [ToTranslationRule jobDev main] }

/-- embedding of CreateDevJob (part_002 lines 57-86): resolve, translate, then a
single creation call.  The second component counts creation calls issued. -/
def CreateDevJob (jobDev main : Dev) (c : Cluster) (now : Nat) :
    Except PipelineErr String × Nat :=
  match get jobDev main.namespaceName c with
  | .error e => (.error (.resolve e), 0)
  | .ok j =>
    match translate j (pipelineTranslation jobDev main j) now with
    | .error e => (.error (.translateErr e), 0)
    | .ok newJob =>
      match c.createJob main.namespaceName newJob with
      | .error e => (.error (.createFailed e), 1)
      | .ok created => (.ok created.name, 1)

/-- the pipeline run under an ambient cancellation signal.  Neither get nor
CreateDevJob accepts a context argument in the source, so the signal is
invisible to them; this wrapper makes that explicit. -/
def CreateDevJobCtx (cancelled : Bool) (jobDev main : Dev) (c : Cluster) (now : Nat) :
    Except PipelineErr String × Nat :=
  CreateDevJob jobDev main c now

end Okteto

namespace Ssh

/-- the pool state read by keepAlive and written by stop (part_001) -/
structure PoolState where
  ka : Nat
  stopped : Bool
  deriving DecidableEq

inductive NetErr where
  | closedNetwork
  | other (msg : String)
  deriving DecidableEq

/-- Modelled from the spec: errors.IsClosedNetwork (not under src) recognises
the already-closing network resource error. -/
def IsClosedNetwork : NetErr → Bool
  | .closedNetwork => true
  | .other _ => false

/-- one iteration of pool.keepAlive (part_001 lines 100-107) at a ticker tick:
the pair is (loop exits, keep-alive request sent). -/
def keepAliveTick (p : PoolState) : Bool × Bool :=
  if p.stopped then (true, false) else (false, true)

/-- one iteration of pool.keepAlive (part_001 lines 91-99) when the context is
done: the loop exits and no keep-alive request is sent. -/
def keepAliveCtxDone : Bool × Bool := (true, false)

/-- embedding of pool.stop (part_001 lines 160-167): mark the pool stopped,
close the client; the Bool records whether the close failure is treated as an
error (logged), which a closed-network failure is not. -/
def stop (p : PoolState) (closeResult : Option NetErr) : PoolState × Bool :=
  let p1 := { p with stopped := true }
  match closeResult with
  | none => (p1, false)
  | some e => (p1, ! IsClosedNetwork e)

/-- embedding of the loop of getConn (part_001 lines 146-155): dial outcomes are
an oracle indexed by attempt number; lastErr is threaded as in the source. -/
def getConnLoop (dial : Nat → Except String Nat) : Nat → Nat → Option String → Except String Nat
  | _, 0, lastErr => .error (lastErr.getD "")
  | i, fuel + 1, _ =>
    match dial i with
    | .ok c => .ok c
    | .error e => getConnLoop dial (i + 1) fuel (some e)

/-- embedding of getConn (part_001 lines 143-158): the maxRetries argument is
accepted and the loop bound is the literal 5. -/
def getConn (dial : String → Nat → Except String Nat) (serverAddr : String) (maxRetries : Nat) :
    Except String Nat :=
  getConnLoop (dial serverAddr) 0 5 none

/-- the claim's description of the outcome: the first successful dial among the
five attempts, or the fifth attempt's error once all five fail. -/
def claimedConnOutcome (dial : String → Nat → Except String Nat) (serverAddr : String) :
    Except String Nat :=
  match (List.range 5).findSome? (fun i => (dial serverAddr i).toOption) with
  | some c => .ok c
  | none => dial serverAddr 4

end Ssh

/-- structural decimal digit list of a Nat, most significant digit first;
reference implementation used to reason about Nat.repr. -/
def repAux (n : Nat) : List Char :=
  if _h : n < 10 then [Nat.digitChar n]
  else repAux (n / 10) ++ [Nat.digitChar (n % 10)]
decreasing_by
  exact Nat.div_lt_self (by omega) (by omega)

def digitVal (c : Char) : Nat := c.toNat - 48

def decodeDigits (l : List Char) : Nat :=
  l.foldl (fun a c => a * 10 + digitVal c) 0

namespace Okteto

def wPod : PodSpec :=
  { containers := [{ name := "app", image := "app-image", command := [], args := [], env := [], volumeMounts := [] }]
    initContainers := []
    tolerations := []
    volumes := []
    securityContext := none
    affinitySessions := [] }

def cJob : Job :=
  { name := "web"
    labels := some [("controller-uid", "u1")]
    annotations := [(revisionKey, "3")]
    resourceVersion := "42"
    status := { active := 1, succeeded := 0, failed := 0 }
    spec :=
      { selector := some [("controller-uid", "u1")]
        template :=
          { labels := some [("controller-uid", "u1")]
            annotations := []
            spec := wPod } } }

def cT : Translation :=
  { name := "sess"
    interactive := false
    version := "1.0"
    job := none
    annotations := []
    tolerations := []
    rules := [] }

def wDev1 : Dev :=
  { name := "web"
    namespaceName := "ns1"
    labels := [("app", "web")]
    container := "app"
    image := ""
    command := []
    environment := []
    annotations := []
    tolerations := []
    secrets := []
    securityContext := none
    marker := "" }

def wCluster1 : Cluster :=
  { getJob := fun _ _ => .error "unused"
    listJobs := fun _ _ => .ok [cJob]
    createJob := fun _ j => .ok j }

def wDev2 : Dev := { wDev1 with labels := [], container := "ghost" }

def wMain2 : Dev := { wDev1 with name := "sess", labels := [] }

def wCluster2 : Cluster :=
  { getJob := fun _ _ => .ok cJob
    listJobs := fun _ _ => .error "unused"
    createJob := fun _ j => .ok j }

def wDev7 : Dev := { wDev1 with labels := [], container := "app" }

def wJob9 : Job := { cJob with labels := none }

def wJob9b : Job :=
  { cJob with spec := { cJob.spec with template := { cJob.spec.template with labels := none } } }

end Okteto

theorem toDigitsCore_eq_repAux (f : Nat) :
    ∀ (n : Nat) (acc : List Char), n < f →
      Nat.toDigitsCore 10 f n acc = repAux n ++ acc := by
  induction f with
  | zero => intro n acc h; omega
  | succ f ih =>
    intro n acc h
    rw [Nat.toDigitsCore]
    by_cases hn : n / 10 = 0
    · have hlt : n < 10 := by omega
      rw [if_pos hn, repAux]
      simp [hlt, Nat.mod_eq_of_lt hlt]
    · have hge : ¬ n < 10 := by
        intro hlt
        exact hn (Nat.div_eq_of_lt hlt)
      rw [if_neg hn]
      rw [ih (n / 10) _ (by omega)]
      conv_rhs => rw [repAux]
      rw [dif_neg hge]
      simp [List.append_assoc]

theorem repr_eq_repAux (n : Nat) : Nat.repr n = (repAux n).asString := by
  rw [Nat.repr, Nat.toDigits, toDigitsCore_eq_repAux (n + 1) n [] (by omega)]
  simp

theorem decodeDigits_append_one (l : List Char) (c : Char) :
    decodeDigits (l ++ [c]) = decodeDigits l * 10 + digitVal c := by
  simp [decodeDigits, List.foldl_append]

theorem digitVal_digitChar (n : Nat) (h : n < 10) : digitVal (Nat.digitChar n) = n := by
  interval_cases n <;> rfl

theorem decodeDigits_repAux (n : Nat) : decodeDigits (repAux n) = n := by
  induction n using Nat.strong_induction_on with
  | _ n ih =>
    rw [repAux]
    by_cases h : n < 10
    · rw [dif_pos h]
      simp [decodeDigits, digitVal_digitChar n h]
    · rw [dif_neg h]
      rw [decodeDigits_append_one]
      rw [ih (n / 10) (Nat.div_lt_self (by omega) (by omega))]
      rw [digitVal_digitChar (n % 10) (Nat.mod_lt n (by omega))]
      omega

theorem natRepr_injective {m n : Nat} (h : Nat.repr m = Nat.repr n) : m = n := by
  rw [repr_eq_repAux, repr_eq_repAux] at h
  have hd := congrArg String.data h
  simp [List.asString] at hd
  have hm := decodeDigits_repAux m
  rw [hd, decodeDigits_repAux n] at hm
  exact hm.symm

namespace Okteto

theorem lookupKey_eraseKey_self (m : SMap) (k : String) :
    lookupKey (eraseKey m k) k = none := by
  induction m with
  | nil => rfl
  | cons kv rest ih =>
    obtain ⟨k1, v1⟩ := kv
    by_cases h : k1 = k
    · simpa [eraseKey, h] using ih
    · simpa [eraseKey, lookupKey, h] using ih

theorem lookupKey_eraseKey_ne (m : SMap) (k1 k : String) (h : k1 ≠ k) :
    lookupKey (eraseKey m k1) k = lookupKey m k := by
  induction m with
  | nil => rfl
  | cons kv rest ih =>
    obtain ⟨k2, v2⟩ := kv
    by_cases h2 : k2 = k1
    · subst h2
      simpa [eraseKey, lookupKey, h] using ih
    · simp [eraseKey, lookupKey, h2, ih]

theorem lookupKey_setKey_self (m : SMap) (k v : String) :
    lookupKey (setKey m k v) k = some v := by
  induction m with
  | nil => simp [setKey, lookupKey]
  | cons kv rest ih =>
    obtain ⟨k1, v1⟩ := kv
    by_cases h : k1 = k
    · simp [setKey, lookupKey, h]
    · simp [setKey, lookupKey, h, ih]

theorem lookupKey_setKey_ne (m : SMap) (k1 k v : String) (h : k1 ≠ k) :
    lookupKey (setKey m k1 v) k = lookupKey m k := by
  induction m with
  | nil => simp [setKey, lookupKey, h]
  | cons kv rest ih =>
    obtain ⟨k2, v2⟩ := kv
    by_cases h2 : k2 = k1
    · subst h2
      simp [setKey, lookupKey, h]
    · simp [setKey, lookupKey, h2, ih]

theorem lookupKey_mergeMap_none (overrides : SMap) :
    ∀ (base : SMap) (k : String), lookupKey base k = none → lookupKey overrides k = none →
      lookupKey (mergeMap base overrides) k = none := by
  induction overrides with
  | nil => intro base k hb _; exact hb
  | cons kv rest ih =>
    intro base k hb ho
    obtain ⟨k1, v1⟩ := kv
    have hne : k1 ≠ k := by
      intro hk
      simp [lookupKey, hk] at ho
    have ho2 : lookupKey rest k = none := by
      simpa [lookupKey, hne] using ho
    have hb2 : lookupKey (setKey base k1 v1) k = none := by
      rw [lookupKey_setKey_ne base k1 k v1 hne]
      exact hb
    simpa [mergeMap, List.foldl_cons] using ih (setKey base k1 v1) k hb2 ho2

theorem translate_ok_inv (old : Job) (t : Translation) (now : Nat) (j : Job)
    (hok : translate old t now = .ok j) :
    ∃ objLabels tplLabels sFinal,
      old.labels = some objLabels ∧ old.spec.template.labels = some tplLabels ∧
      applyRules t (newJobName old.name now) (prePodSpec old t) t.rules = .ok sFinal ∧
      j = translatedJob old t now objLabels tplLabels sFinal := by
  unfold translate at hok
  cases hol : old.labels with
  | none => rw [hol] at hok; cases hok
  | some objLabels =>
    cases htl : old.spec.template.labels with
    | none => rw [hol, htl] at hok; cases hok
    | some tplLabels =>
      rw [hol, htl] at hok
      cases hap : applyRules t (newJobName old.name now) (prePodSpec old t) t.rules with
      | error e => rw [hap] at hok; cases hok
      | ok sFinal =>
        rw [hap] at hok
        injection hok with hj
        exact ⟨objLabels, tplLabels, sFinal, rfl, rfl, rfl, hj.symm⟩

theorem translate_ok_name (old : Job) (t : Translation) (now : Nat) (j : Job)
    (hok : translate old t now = .ok j) : j.name = newJobName old.name now := by
  obtain ⟨ol, tl, sF, _, _, _, hj⟩ := translate_ok_inv old t now j hok
  rw [hj]
  rfl

theorem GetDevContainer_eq_none (containers : List Container) (name : String) :
    GetDevContainer containers name = none ↔ name ∉ containers.map (fun c => c.name) := by
  induction containers with
  | nil => simp [GetDevContainer]
  | cons c rest ih =>
    by_cases h : c.name = name
    · simp [GetDevContainer, h]
    · simp [GetDevContainer, h, Option.map_eq_none', ih, Ne.symm h]

theorem TranslateOktetoBinVolumeMounts_name (c : Container) :
    (TranslateOktetoBinVolumeMounts c).name = c.name := by
  unfold TranslateOktetoBinVolumeMounts
  split <;> rfl

theorem map_name_updateAt (l : List Container) (f : Container → Container)
    (hf : ∀ c, (f c).name = c.name) :
    ∀ i, (updateAt l i f).map (fun c => c.name) = l.map (fun c => c.name) := by
  induction l with
  | nil => intro i; rfl
  | cons c rest ih =>
    intro i
    cases i with
    | zero => simp [updateAt, hf]
    | succ n => simp [updateAt, ih]

theorem map_name_updateAt_dev (l : List Container) (r : TranslationRule) (i : Nat) :
    (updateAt l i (fun c => TranslateDevContainer c r)).map (fun c => c.name) =
      l.map (fun c => c.name) :=
  map_name_updateAt l (fun c => TranslateDevContainer c r) (fun _ => rfl) i

theorem map_name_updateAt_bin (l : List Container) (i : Nat) :
    (updateAt l i TranslateOktetoBinVolumeMounts).map (fun c => c.name) =
      l.map (fun c => c.name) :=
  map_name_updateAt l _ TranslateOktetoBinVolumeMounts_name i

theorem containers_TranslatePodSecurityContext (spec : PodSpec) (sc : Option SecurityContext) :
    (TranslatePodSecurityContext spec sc).containers = spec.containers := by
  cases sc <;> rfl

theorem containers_TranslateOktetoDevSecret (spec : PodSpec) (s : String) (secrets : List String) :
    (TranslateOktetoDevSecret spec s secrets).containers = spec.containers := by
  unfold TranslateOktetoDevSecret
  split <;> rfl

theorem containers_TranslateOktetoInitBinContainer (spec : PodSpec) :
    (TranslateOktetoInitBinContainer spec).containers = spec.containers := by
  unfold TranslateOktetoInitBinContainer
  split <;> rfl

theorem containerNames_applyRuleAt (t : Translation) (spec : PodSpec) (r : TranslationRule) (i : Nat) :
    containerNames (applyRuleAt t spec r i) = containerNames spec := by
  unfold applyRuleAt
  split <;>
    simp [containerNames, containers_TranslatePodSecurityContext,
      containers_TranslateOktetoDevSecret, containers_TranslateOktetoInitBinContainer,
      TranslateOktetoVolumes, TranslateOktetoBinVolume,
      map_name_updateAt_dev, map_name_updateAt_bin]

theorem applyRules_no_panic (t : Translation) (jn : String) :
    ∀ (rules : List TranslationRule) (spec : PodSpec),
      applyRules t jn spec rules ≠ .error .nilMapPanic := by
  intro rules
  induction rules with
  | nil => intro spec h; cases h
  | cons r rest ih =>
    intro spec h
    simp only [applyRules] at h
    cases hg : GetDevContainer spec.containers r.container with
    | none =>
      rw [hg] at h
      injection h with h2
      exact TranslateErr.noConfusion h2
    | some i =>
      rw [hg] at h
      exact ih _ h

theorem applyRules_misses (t : Translation) (jn : String) :
    ∀ (rules : List TranslationRule) (spec : PodSpec),
      (∃ r ∈ rules, r.container ∉ containerNames spec) →
      ∃ cn, applyRules t jn spec rules = .error (.containerNotFound cn jn) := by
  intro rules
  induction rules with
  | nil =>
    rintro spec ⟨r, hr, _⟩
    cases hr
  | cons r0 rest ih =>
    rintro spec ⟨r, hr, hmiss⟩
    cases hg : GetDevContainer spec.containers r0.container with
    | none =>
      refine ⟨r0.container, ?_⟩
      simp only [applyRules]
      rw [hg]
    | some i =>
      rcases List.mem_cons.mp hr with h0 | hrest
      · subst h0
        exfalso
        have hn : GetDevContainer spec.containers r.container = none :=
          (GetDevContainer_eq_none spec.containers r.container).mpr hmiss
        rw [hn] at hg
        cases hg
      · have hcn : r.container ∉ containerNames (applyRuleAt t spec r0 i) := by
          rw [containerNames_applyRuleAt]
          exact hmiss
        obtain ⟨cn, hres⟩ := ih (applyRuleAt t spec r0 i) ⟨r, hrest, hcn⟩
        refine ⟨cn, ?_⟩
        simp only [applyRules]
        rw [hg]
        exact hres

theorem containerNames_prePodSpec (old : Job) (t : Translation) :
    containerNames (prePodSpec old t) = containerNames old.spec.template.spec := by
  unfold prePodSpec TranslatePodAffinity TranslateDevTolerations containerNames
  split <;> rfl

/-- C3 counterexample: translating the job named web under the session named
sess yields the name okteto-web-0, not the prefix-session-timestamp name
okteto-sess-0 that the claim predicts. -/
theorem c3_session_name_counterexample :
    (translate cJob cT 0).map Job.name = .ok "okteto-web-0" ∧
    "okteto-web-0" ≠ "okteto-" ++ cT.name ++ "-" ++ Nat.repr 0 := by
  constructor
  · rfl
  · decide

/-- C3 (amended): the derived object's name is the fixed okteto prefix, then
the source job's base name (not the session name), then the unix timestamp. -/
theorem c3_derived_name_from_source (old : Job) (t : Translation) (now : Nat) (j : Job)
    (hok : translate old t now = .ok j) :
    j.name = "okteto-" ++ old.name ++ "-" ++ Nat.repr now :=
  translate_ok_name old t now j hok

theorem c3_witness :
    (translate cJob cT 5).map Job.name = .ok ("okteto-" ++ cJob.name ++ "-" ++ Nat.repr 5) := by
  cases h : translate cJob cT 5 with
  | error e =>
    have hI : (translate cJob cT 5).isOk = true := by decide
    rw [h] at hI
    simp [Except.isOk, Except.toBool] at hI
  | ok j =>
    rw [← c3_derived_name_from_source cJob cT 5 j h]
    rfl

/-- C9: translate faults (nil-map write) rather than returning an error when
either label map of the source job is nil, and never faults when both label
maps are present. -/
theorem c9_nil_label_maps_fault (old : Job) (t : Translation) (now : Nat) :
    ((old.labels = none ∨ old.spec.template.labels = none) →
      translate old t now = .error .nilMapPanic) ∧
    (old.labels ≠ none → old.spec.template.labels ≠ none →
      translate old t now ≠ .error .nilMapPanic) := by
  constructor
  · intro h
    unfold translate
    rcases h with h | h
    · rw [h]
    · rw [h]
      cases old.labels <;> rfl
  · intro h1 h2 hcontra
    cases hol : old.labels with
    | none => exact h1 hol
    | some ol =>
      cases htl : old.spec.template.labels with
      | none => exact h2 htl
      | some tl =>
        unfold translate at hcontra
        rw [hol, htl] at hcontra
        cases hap : applyRules t (newJobName old.name now) (prePodSpec old t) t.rules with
        | error e =>
          rw [hap] at hcontra
          injection hcontra with h3
          exact applyRules_no_panic t (newJobName old.name now) t.rules (prePodSpec old t)
            (by rw [hap, h3])
        | ok sF =>
          rw [hap] at hcontra
          cases hcontra

theorem c9_witness :
    translate wJob9 cT 3 = .error .nilMapPanic ∧
    translate wJob9b cT 3 = .error .nilMapPanic :=
  ⟨(c9_nil_label_maps_fault wJob9 cT 3).1 (Or.inl rfl),
   (c9_nil_label_maps_fault wJob9b cT 3).1 (Or.inr rfl)⟩

/-- C2: a Translation containing a rule whose target container is absent from
the derived pod template makes translate abort with the container-not-found
error, and the pipeline then performs zero creation calls. -/
theorem c2_missing_container_aborts (old : Job) (objLabels tplLabels : SMap)
    (hlo : old.labels = some objLabels) (hlt : old.spec.template.labels = some tplLabels) :
    (∀ (t : Translation) (now : Nat),
      (∃ r ∈ t.rules, r.container ∉ containerNames old.spec.template.spec) →
      ∃ cn, translate old t now = .error (.containerNotFound cn (newJobName old.name now))) ∧
    (∀ (jobDev main : Dev) (c : Cluster) (now : Nat),
      get jobDev main.namespaceName c = .ok old →
      (ToTranslationRule jobDev main).container ∉ containerNames old.spec.template.spec →
      CreateDevJob jobDev main c now =
        (.error (.translateErr (.containerNotFound (ToTranslationRule jobDev main).container
          (newJobName old.name now))), 0)) := by
  have hA : ∀ (t : Translation) (now : Nat),
      (∃ r ∈ t.rules, r.container ∉ containerNames old.spec.template.spec) →
      ∃ cn, translate old t now = .error (.containerNotFound cn (newJobName old.name now)) := by
    intro t now hex
    have hex2 : ∃ r ∈ t.rules, r.container ∉ containerNames (prePodSpec old t) := by
      obtain ⟨r, hr, hm⟩ := hex
      refine ⟨r, hr, ?_⟩
      rw [containerNames_prePodSpec]
      exact hm
    obtain ⟨cn, hres⟩ := applyRules_misses t (newJobName old.name now) t.rules (prePodSpec old t) hex2
    refine ⟨cn, ?_⟩
    unfold translate
    rw [hlo, hlt, hres]
  refine ⟨hA, ?_⟩
  intro jobDev main c now hget hmiss
  have hn : GetDevContainer (prePodSpec old (pipelineTranslation jobDev main old)).containers
      (ToTranslationRule jobDev main).container = none := by
    apply (GetDevContainer_eq_none _ _).mpr
    have hcn := containerNames_prePodSpec old (pipelineTranslation jobDev main old)
    show (ToTranslationRule jobDev main).container ∉
      containerNames (prePodSpec old (pipelineTranslation jobDev main old))
    rw [hcn]
    exact hmiss
  have htr : translate old (pipelineTranslation jobDev main old) now =
      .error (.containerNotFound (ToTranslationRule jobDev main).container
        (newJobName old.name now)) := by
    unfold translate
    rw [hlo, hlt]
    have hrules : (pipelineTranslation jobDev main old).rules = [ToTranslationRule jobDev main] := rfl
    rw [hrules]
    simp only [applyRules]
    rw [hn]
  simp only [CreateDevJob, hget, htr]

theorem c2_witness :
    CreateDevJob wDev2 wMain2 wCluster2 4 =
      (.error (.translateErr (.containerNotFound "ghost" (newJobName "web" 4))), 0) :=
  (c2_missing_container_aborts cJob [("controller-uid", "u1")] [("controller-uid", "u1")]
    rfl rfl).2 wDev2 wMain2 wCluster2 4 rfl (by decide)

/-- C1: if the label query lists exactly one job, get returns it; zero matches
produce the not-found error carrying the selector; more than one produce the
ambiguity error carrying the count and the selector, and no candidate is ever
returned. -/
theorem c1_label_resolution_three_way (dev : Dev) (ns : String) (c : Cluster) (items : List Job)
    (hns : ns ≠ "") (hl : dev.labels ≠ [])
    (hlist : c.listJobs ns (labelsSelector dev.labels) = .ok items) :
    (∀ j, items = [j] → get dev ns c = .ok j) ∧
    (items = [] → get dev ns c = .error (.notFound (labelsSelector dev.labels))) ∧
    (items.length > 1 →
      get dev ns c = .error (.ambiguous items.length (labelsSelector dev.labels)) ∧
      ∀ j ∈ items, get dev ns c ≠ .ok j) := by
  have hlen : ¬ dev.labels.length = 0 := by
    simpa [List.length_eq_zero] using hl
  rw [get, if_neg hns, if_neg hlen, hlist]
  match items with
  | [] =>
    refine ⟨?_, ?_, ?_⟩
    · intro j hj; cases hj
    · intro _; rfl
    · intro hgt; simp at hgt
  | [j0] =>
    refine ⟨?_, ?_, ?_⟩
    · intro j hj
      cases hj
      simp
    · intro hj; cases hj
    · intro hgt; simp at hgt
  | j0 :: j1 :: rest =>
    refine ⟨?_, ?_, ?_⟩
    · intro j hj; cases hj
    · intro hj; cases hj
    · intro _
      constructor
      · simp [List.length_cons]
      · intro j _ hok
        simp at hok

theorem c1_witness : get wDev1 "ns1" wCluster1 = .ok cJob := by
  have h := c1_label_resolution_three_way wDev1 "ns1" wCluster1 [cJob]
    (by decide) (by decide) rfl
  exact h.1 cJob rfl

/-- C4: independent of which rules apply, a successful translate empties the
status, clears the resource version, nils the selector, removes the revision
annotation (provided the Translation's common annotations do not re-add it),
removes the controller-uid label from both the object and the pod template,
and stamps the job-name label on both with the regenerated name. -/
theorem c4_identity_stripping (old : Job) (t : Translation) (now : Nat) (j : Job)
    (hrev : lookupKey t.annotations revisionKey = none)
    (hok : translate old t now = .ok j) :
    j.status = JobStatus.empty ∧
    j.resourceVersion = "" ∧
    j.spec.selector = none ∧
    lookupKey j.annotations revisionKey = none ∧
    (∃ L, j.labels = some L ∧ lookupKey L "controller-uid" = none ∧
      lookupKey L "job-name" = some j.name) ∧
    (∃ L, j.spec.template.labels = some L ∧ lookupKey L "controller-uid" = none ∧
      lookupKey L "job-name" = some j.name) := by
  obtain ⟨ol, tl, sF, hol, htl, hap, hj⟩ := translate_ok_inv old t now j hok
  subst hj
  refine ⟨rfl, rfl, rfl, ?_, ?_, ?_⟩
  · show lookupKey
      (CommonTranslation t (eraseKey old.annotations revisionKey) old.spec.template.annotations).1
      revisionKey = none
    unfold CommonTranslation
    rw [lookupKey_setKey_ne _ _ _ _ (by decide)]
    exact lookupKey_mergeMap_none t.annotations _ _ (lookupKey_eraseKey_self _ _) hrev
  · refine ⟨_, rfl, lookupKey_eraseKey_self _ _, ?_⟩
    rw [lookupKey_eraseKey_ne _ _ _ (by decide)]
    exact lookupKey_setKey_self _ _ _
  · refine ⟨_, rfl, lookupKey_eraseKey_self _ _, ?_⟩
    rw [lookupKey_eraseKey_ne _ _ _ (by decide)]
    exact lookupKey_setKey_self _ _ _

theorem c4_witness :
    (translate cJob cT 7).map
      (fun j => (j.resourceVersion, j.spec.selector, lookupKey j.annotations revisionKey)) =
      .ok ("", none, none) := by
  cases h : translate cJob cT 7 with
  | error e =>
    have hI : (translate cJob cT 7).isOk = true := by decide
    rw [h] at hI
    simp [Except.isOk, Except.toBool] at hI
  | ok j =>
    obtain ⟨_, h2, h3, h4, _, _⟩ := c4_identity_stripping cJob cT 7 j rfl h
    simp [Except.map, h2, h3, h4]

theorem get?_append_left {α : Type} (l1 l2 : List α) :
    ∀ i, i < l1.length → (l1 ++ l2).get? i = l1.get? i := by
  induction l1 with
  | nil => intro i h; simp at h
  | cons a rest ih =>
    intro i h
    cases i with
    | zero => rfl
    | succ n => exact ih n (Nat.lt_of_succ_lt_succ h)

theorem get?_updateAt_ne {α : Type} (f : α → α) :
    ∀ (l : List α) (i jx : Nat), i ≠ jx → (updateAt l jx f).get? i = l.get? i := by
  intro l
  induction l with
  | nil => intro i jx _; cases jx <;> rfl
  | cons a rest ih =>
    intro i jx h
    cases jx with
    | zero =>
      cases i with
      | zero => exact absurd rfl h
      | succ n => rfl
    | succ m =>
      cases i with
      | zero => rfl
      | succ n => exact ih n m (by omega)

/-- C5: translate never mutates the source object: every pre-existing heap
cell is unchanged by translateHeap, all writes landing on the freshly
allocated deep copy. -/
theorem c5_source_never_mutated (store : List Job) (src : Nat) (t : Translation) (now : Nat)
    (i : Nat) (hi : i < store.length) :
    (translateHeap store src t now).1.get? i = store.get? i := by
  cases hsrc : store.get? src with
  | none =>
    simp only [translateHeap]
    rw [hsrc]
  | some old =>
    simp only [translateHeap]
    rw [hsrc]
    show (match translate old t now with
          | Except.error e => (store ++ [old], Except.error e)
          | Except.ok j => (updateAt (store ++ [old]) store.length fun _ => j,
              Except.ok store.length)).1.get? i = store.get? i
    cases hap : translate old t now with
    | error e => exact get?_append_left store [old] i hi
    | ok j =>
      exact (get?_updateAt_ne (fun _ => j) (store ++ [old]) i store.length (by omega)).trans
        (get?_append_left store [old] i hi)

theorem c5_witness : (translateHeap [cJob] 0 cT 6).1.get? 0 = some cJob :=
  (c5_source_never_mutated [cJob] 0 cT 6 0 (by decide)).trans rfl

theorem newJobName_inj (base : String) {n1 n2 : Nat}
    (h : newJobName base n1 = newJobName base n2) : n1 = n2 := by
  unfold newJobName at h
  have hd := congrArg String.data h
  simp only [String.data_append, List.append_assoc] at hd
  have h1 := List.append_cancel_left hd
  have h2 := List.append_cancel_left h1
  have h3 := List.append_cancel_left h2
  exact natRepr_injective (String.ext h3)

/-- C6: two successful translations of the same source under the same
Translation at different unix timestamps yield derived objects with different
names. -/
theorem c6_distinct_timestamps_distinct_names (old : Job) (t : Translation) (now1 now2 : Nat)
    (hne : now1 ≠ now2)
    (h1 : (translate old t now1).isOk = true) (h2 : (translate old t now2).isOk = true) :
    (translate old t now1).map Job.name ≠ (translate old t now2).map Job.name := by
  cases hA : translate old t now1 with
  | error e =>
    rw [hA] at h1
    simp [Except.isOk, Except.toBool] at h1
  | ok j1 =>
    cases hB : translate old t now2 with
    | error e =>
      rw [hB] at h2
      simp [Except.isOk, Except.toBool] at h2
    | ok j2 =>
      intro hmap
      simp only [Except.map] at hmap
      injection hmap with hname
      rw [translate_ok_name old t now1 j1 hA, translate_ok_name old t now2 j2 hB] at hname
      exact hne (newJobName_inj old.name hname)

theorem c6_witness :
    (translate cJob cT 0).map Job.name ≠ (translate cJob cT 1).map Job.name :=
  c6_distinct_timestamps_distinct_names cJob cT 0 1 (by decide) (by decide) (by decide)

/-- C7 counterexample: with the cancellation signal already cancelled before
the pipeline starts, the pipeline still resolves, translates and issues its
creation call, returning the created name with one creation call issued rather
than returning a cancellation error with the create never issued. -/
theorem c7_cancellation_ignored_counterexample :
    CreateDevJobCtx true wDev7 wMain2 wCluster2 0 = (.ok "okteto-web-0", 1) := by
  rfl

/-- C7 (amended): the pipeline checks no cancellation signal at all: neither
get nor CreateDevJob accepts one, the outcome is independent of the ambient
signal, no cancellation error constructor exists in the pipeline's error type,
and once resolution and translation succeed the creation call is issued even
under a cancelled signal. -/
theorem c7_no_cancellation_check (b : Bool) (jobDev main : Dev) (c : Cluster) (now : Nat) (j : Job)
    (hg : get jobDev main.namespaceName c = .ok j)
    (ht : (translate j (pipelineTranslation jobDev main j) now).isOk = true) :
    CreateDevJobCtx b jobDev main c now = CreateDevJob jobDev main c now ∧
    (CreateDevJobCtx b jobDev main c now).2 = 1 := by
  refine ⟨rfl, ?_⟩
  cases htr : translate j (pipelineTranslation jobDev main j) now with
  | error e =>
    rw [htr] at ht
    simp [Except.isOk, Except.toBool] at ht
  | ok nj =>
    show (CreateDevJob jobDev main c now).2 = 1
    simp only [CreateDevJob, hg, htr]
    cases c.createJob main.namespaceName nj <;> rfl

theorem c7_witness :
    CreateDevJobCtx true wDev7 wMain2 wCluster2 9 = CreateDevJob wDev7 wMain2 wCluster2 9 ∧
    (CreateDevJobCtx true wDev7 wMain2 wCluster2 9).2 = 1 :=
  c7_no_cancellation_check true wDev7 wMain2 wCluster2 9 cJob rfl (by decide)

/-- C8: after stop has run on a pool, the keep-alive loop exits at its next
tick without sending, and a closed-network failure of the underlying close is
not treated as an error. -/
theorem c8_stop_quiesces_keepalive (p : Ssh.PoolState) (r : Option Ssh.NetErr) :
    Ssh.keepAliveTick (Ssh.stop p r).1 = (true, false) ∧
    (Ssh.stop p (some Ssh.NetErr.closedNetwork)).2 = false := by
  constructor
  · cases r <;> rfl
  · rfl

/-- C10: getConn ignores its maxRetries argument; its outcome is the first
successful dial among the five fixed attempts, or the fifth attempt's error
once all five fail. -/
theorem c10_getconn_ignores_maxretries (dial : String → Nat → Except String Nat)
    (addr : String) (r1 r2 : Nat) :
    Ssh.getConn dial addr r1 = Ssh.getConn dial addr r2 ∧
    Ssh.getConn dial addr r1 = Ssh.claimedConnOutcome dial addr := by
  refine ⟨rfl, ?_⟩
  have hrange : List.range 5 = [0, 1, 2, 3, 4] := rfl
  rw [Ssh.getConn, Ssh.claimedConnOutcome, hrange]
  cases h0 : dial addr 0 with
  | ok c => simp [Ssh.getConnLoop, h0, List.findSome?, Except.toOption]
  | error e0 =>
    cases h1 : dial addr 1 with
    | ok c => simp [Ssh.getConnLoop, h0, h1, List.findSome?, Except.toOption]
    | error e1 =>
      cases h2 : dial addr 2 with
      | ok c => simp [Ssh.getConnLoop, h0, h1, h2, List.findSome?, Except.toOption]
      | error e2 =>
        cases h3 : dial addr 3 with
        | ok c => simp [Ssh.getConnLoop, h0, h1, h2, h3, List.findSome?, Except.toOption]
        | error e3 =>
          cases h4 : dial addr 4 with
          | ok c => simp [Ssh.getConnLoop, h0, h1, h2, h3, h4, List.findSome?, Except.toOption]
          | error e4 =>
            simp [Ssh.getConnLoop, h0, h1, h2, h3, h4, List.findSome?, Except.toOption]

end Okteto
